import Mathlib

/-!
# Verification of the fritz-callmonitor2mqtt call-lifecycle engine

A shallow embedding of the core of the `fritz-callmonitor2mqtt` repository:
the phone-number normalizer and MSN detection, the semicolon line-protocol
parser with its per-line enrichment maps, the per-line call FSM with its
1-second terminal-state timers, the call-store update path, and the MQTT
FSM-debug publisher.  Go strings are modelled as `List Char` (`Str`); Go
maps keyed by `int` as functions `Int → Option α`; Go panics as `none` /
a dedicated `panic` outcome; the random UUID-v7 call-id generator as a
fresh supply of abstract `Nat` identifiers (the repository's own tests
assert only freshness/uniqueness of the generated ids); wall-clock inputs
(`time.Now`, `CURRENT_TIMESTAMP`) as explicit parameters.
-/

namespace FritzCM

/-- Go strings (byte strings, here ASCII) modelled as lists of characters. -/
abbrev Str := List Char

/-- Go `strings.HasPrefix`. -/
def goHasPrefix (s pre : Str) : Bool := pre.isPrefixOf s

/-- Go `strings.HasSuffix`. -/
def goHasSuffix (s suf : Str) : Bool := suf.isSuffixOf s

/-! ## Normalizer (`internal/callmonitor/client.go`, `normalizePhoneNumber`) -/

/--
`Client.normalizePhoneNumber` translated from the source.  The Go body is
three sequential rewrites of `phoneNumber`:

1. `if strings.HasPrefix(phoneNumber, "00") { phoneNumber = "+" + phoneNumber[2:] }`
2. `if !strings.HasPrefix(phoneNumber, "0") && c.localAreaCode != "" {
      phoneNumber = "+" + c.countryCode + c.localAreaCode + phoneNumber[1:] }`
3. `if strings.HasPrefix(phoneNumber, "0") && c.countryCode != "" {
      phoneNumber = "+" + c.countryCode + phoneNumber[1:] }`

`phoneNumber[1:]` in step 2 panics in Go when the string is empty (slice
bound out of range); that panic is modelled as `none`.  The slices in
steps 1 and 3 are guarded by the prefix checks and cannot panic.
-/
def normalizePhoneNumber (countryCode localAreaCode phoneNumber : Str) : Option Str :=
  let p1 := if goHasPrefix phoneNumber ['0', '0'] then '+' :: phoneNumber.drop 2 else phoneNumber
  let p2 : Option Str :=
    if !goHasPrefix p1 ['0'] && !localAreaCode.isEmpty then
      match p1 with
      | [] => none
      | _ :: t => some ('+' :: (countryCode ++ localAreaCode ++ t))
    else some p1
  p2.map fun q =>
    if goHasPrefix q ['0'] && !countryCode.isEmpty then '+' :: (countryCode ++ q.drop 1)
    else q

/--
Modelled from the spec: the four-step normalization algorithm of §4.1
(steps tried in order, first applicable step returns):
1. a leading `00` is replaced with `+`;
2. if the number starts with `0` and a country code is configured, the
   leading `0` is replaced with `+<country>`;
3. if it does not start with `0` and a local-area code is configured,
   `+<country><area>` is prepended to the whole number;
4. otherwise it is returned unchanged.  Empty input returns empty.
-/
def normalizePhoneNumberSpec (countryCode localAreaCode phoneNumber : Str) : Str :=
  if phoneNumber.isEmpty then []
  else if goHasPrefix phoneNumber ['0', '0'] then '+' :: phoneNumber.drop 2
  else if goHasPrefix phoneNumber ['0'] && !countryCode.isEmpty then
    '+' :: (countryCode ++ phoneNumber.drop 1)
  else if !goHasPrefix phoneNumber ['0'] && !localAreaCode.isEmpty then
    '+' :: (countryCode ++ localAreaCode ++ phoneNumber)
  else phoneNumber

/--
The behaviour `normalizePhoneNumber` actually implements, case-split on the
original input (the amended claim): a leading `00` is first replaced by `+`,
and because the result then no longer starts with `0`, a configured
local-area code rewrites it again, dropping the leading `+`; a number not
starting with `0` likewise loses its first character when the local-area
code is prepended; the empty input returns empty only when no local-area
code is configured, and panics (`none`) otherwise.
-/
def normalizePhoneNumberAmended (countryCode localAreaCode phoneNumber : Str) : Option Str :=
  match phoneNumber with
  | [] => if localAreaCode.isEmpty then some [] else none
  | c :: t =>
    if c = '0' then
      match t with
      | '0' :: t2 =>
        if localAreaCode.isEmpty then some ('+' :: t2)
        else some ('+' :: (countryCode ++ localAreaCode ++ t2))
      | _ =>
        if countryCode.isEmpty then some (c :: t)
        else some ('+' :: (countryCode ++ t))
    else
      if localAreaCode.isEmpty then some (c :: t)
      else some ('+' :: (countryCode ++ localAreaCode ++ t))

/-! ## MSN detection (`pkg/types`, `DetectMSN`) -/

/--
`DetectMSN` translated from the source: returns the first configured MSN
that is a non-empty suffix of the phone number, else the empty string.

```go
if phoneNumber == "" { return "" }
for _, msn := range msns {
    if msn != "" && strings.HasSuffix(phoneNumber, msn) { return msn }
}
return ""
```
-/
def DetectMSN (phoneNumber : Str) (msns : List Str) : Str :=
  if phoneNumber.isEmpty then []
  else
    match msns.find? (fun msn => !msn.isEmpty && goHasSuffix phoneNumber msn) with
    | some msn => msn
    | none => []

/--
Modelled from the spec (§4.1 MSN detection, read literally): return the
first MSN `m` in the list such that `N` ends with `m`; otherwise empty;
empty `N` returns empty.
-/
def detectMSNSpec (phoneNumber : Str) (msns : List Str) : Str :=
  if phoneNumber.isEmpty then []
  else
    match msns.find? (fun msn => goHasSuffix phoneNumber msn) with
    | some msn => msn
    | none => []

/-! ## Data model (`pkg/types/call.go`) -/

/-- `CallType` (`"ring" | "call" | "connect" | "disconnect"`). -/
inductive CallType where
  | ring
  | call
  | connect
  | disconnect
deriving DecidableEq, Fintype

/-- `CallStatus` (`"idle" | "ringing" | "calling" | "talking" | "notReached" |
"missedCall" | "finished" | "messageBox"`). -/
inductive CallStatus where
  | idle
  | ringing
  | calling
  | talking
  | notReached
  | missedCall
  | finished
  | messageBox
deriving DecidableEq, Fintype

/-- `CallDirection` (`"inbound" | "outbound"`). -/
inductive CallDirection where
  | inbound
  | outbound
deriving DecidableEq, Fintype

/--
`CallEvent` from `pkg/types/call.go`.  Go zero values of the optional
string-typed enum fields (`ID`, `Direction`, `Status`, `FinishState`) are
modelled as `none`; the UUID-v7 `ID` string as an abstract `Nat` identifier
drawn from a fresh supply; `Timestamp` as an abstract instant (`Nat`).
-/
structure CallEvent where
  id : Option Nat := none
  timestamp : Nat := 0
  type : CallType
  direction : Option CallDirection := none
  line : Int := 0
  trunk : Str := []
  extension : Str := []
  caller : Str := []
  called : Str := []
  callerMSN : Str := []
  calledMSN : Str := []
  duration : Int := 0
  status : Option CallStatus := none
  finishState : Option CallStatus := none
  rawMessage : Str := []
deriving DecidableEq

/-! ## Line-protocol parser (`internal/callmonitor/client.go`) -/

/-- Pointwise update of a Go map modelled as a function (`m[k] = v` /
`delete(m, k)` via `none`). -/
def upd {α : Type} (m : Int → Option α) (k : Int) (v : Option α) : Int → Option α :=
  fun k2 => if k2 = k then v else m k2

/--
The parser-side fields of `callmonitor.Client`: the per-line enrichment maps
and (modelling `uuid.NewV7()`) the fresh-identifier supply `nextCallId`.
Connection plumbing (socket, channels) is not part of the parsing state.
-/
structure ParserState where
  lineIdToTrunk : Int → Option Str := fun _ => none
  lineIdToDirection : Int → Option CallDirection := fun _ => none
  lineIdToCaller : Int → Option Str := fun _ => none
  lineIdToCalled : Int → Option Str := fun _ => none
  lineIdToCallID : Int → Option Nat := fun _ => none
  nextCallId : Nat := 0

/-- Outcome of `Client.parseEvent`: a typed event plus the updated per-line
maps, a returned `error`, or a Go runtime panic. -/
inductive ParseOutcome where
  | ok (e : CallEvent) (st : ParserState)
  | err
  | panic

/-- Value of a decimal-digit character. -/
def digitVal? (c : Char) : Option Nat :=
  if c.isDigit then some (c.toNat - Char.toNat '0') else none

/-- All-digits value of a nonempty digit string, else `none`. -/
def digitsVal? (l : Str) : Option Nat :=
  if l.isEmpty then none
  else l.foldl (fun acc c =>
    match acc, digitVal? c with
    | some n, some d => some (n * 10 + d)
    | _, _ => none) (some 0)

/-- Go `strconv.Atoi` (sign handling; the int64 range check is not
modelled, the claims only depend on success vs failure on short fields). -/
def goAtoi? (s : Str) : Option Int :=
  match s with
  | '+' :: rest => (digitsVal? rest).map Int.ofNat
  | '-' :: rest => (digitsVal? rest).map fun n => -(n : Int)
  | l => (digitsVal? l).map Int.ofNat

/-- Go `strings.ToUpper` (ASCII). -/
def goToUpper (s : Str) : Str := s.map Char.toUpper

/--
`parseEventRing` (RING, `timestamp;RING;line;caller;called;trunk;`):
`if len(parts) < 5` → error; `uuid.NewV7()` modelled as drawing
`st.nextCallId`; the struct literal then evaluates `Trunk: parts[5]` —
which panics when `len(parts) == 5` — and normalizes `parts[3]`/`parts[4]`
(a normalization panic propagates); finally the five per-line maps are
updated (`lineIdToTrunk` only when the trunk is non-empty).
-/
def parseEventRing (countryCode localAreaCode : Str) (st : ParserState)
    (parts : List Str) (ts : Nat) (lineID : Int) (raw : Str) : ParseOutcome :=
  if parts.length < 5 then .err
  else
    let callID := st.nextCallId
    match parts.get? 5 with
    | none => .panic
    | some trunk =>
      match normalizePhoneNumber countryCode localAreaCode ((parts.get? 3).getD []),
            normalizePhoneNumber countryCode localAreaCode ((parts.get? 4).getD []) with
      | some caller, some called =>
        let e : CallEvent :=
          { id := some callID, timestamp := ts, type := .ring,
            direction := some .inbound, line := lineID, trunk := trunk,
            caller := caller, called := called, rawMessage := raw }
        let st2 : ParserState :=
          { st with
            lineIdToTrunk :=
              if !trunk.isEmpty then upd st.lineIdToTrunk lineID (some trunk)
              else st.lineIdToTrunk,
            lineIdToDirection := upd st.lineIdToDirection lineID (some .inbound),
            lineIdToCaller := upd st.lineIdToCaller lineID (some caller),
            lineIdToCalled := upd st.lineIdToCalled lineID (some called),
            lineIdToCallID := upd st.lineIdToCallID lineID (some callID),
            nextCallId := st.nextCallId + 1 }
        .ok e st2
      | _, _ => .panic

/--
`parseEventCall` (CALL, `timestamp;CALL;line;extension;caller;called;trunk;`):
`if len(parts) < 6` → error; `Trunk: parts[6]` panics when
`len(parts) == 6`; otherwise as RING with direction outbound.
-/
def parseEventCall (countryCode localAreaCode : Str) (st : ParserState)
    (parts : List Str) (ts : Nat) (lineID : Int) (raw : Str) : ParseOutcome :=
  if parts.length < 6 then .err
  else
    let callID := st.nextCallId
    match parts.get? 6 with
    | none => .panic
    | some trunk =>
      match normalizePhoneNumber countryCode localAreaCode ((parts.get? 4).getD []),
            normalizePhoneNumber countryCode localAreaCode ((parts.get? 5).getD []) with
      | some caller, some called =>
        let e : CallEvent :=
          { id := some callID, timestamp := ts, type := .call,
            direction := some .outbound, line := lineID, trunk := trunk,
            extension := (parts.get? 3).getD [],
            caller := caller, called := called, rawMessage := raw }
        let st2 : ParserState :=
          { st with
            lineIdToTrunk :=
              if !trunk.isEmpty then upd st.lineIdToTrunk lineID (some trunk)
              else st.lineIdToTrunk,
            lineIdToDirection := upd st.lineIdToDirection lineID (some .outbound),
            lineIdToCaller := upd st.lineIdToCaller lineID (some caller),
            lineIdToCalled := upd st.lineIdToCalled lineID (some called),
            lineIdToCallID := upd st.lineIdToCallID lineID (some callID),
            nextCallId := st.nextCallId + 1 }
        .ok e st2
      | _, _ => .panic

/--
`parseEventConnect` (CONNECT, `timestamp;CONNECT;line;extension;number;`):
`if len(parts) < 4` → error; id, trunk, direction, caller and called are
spliced in from the per-line maps when present (Go zero values otherwise);
the maps are not modified.
-/
def parseEventConnect (st : ParserState) (parts : List Str) (ts : Nat)
    (lineID : Int) (raw : Str) : ParseOutcome :=
  if parts.length < 4 then .err
  else
    let e : CallEvent :=
      { timestamp := ts, type := .connect, line := lineID,
        extension := (parts.get? 3).getD [], rawMessage := raw,
        id := st.lineIdToCallID lineID,
        trunk := (st.lineIdToTrunk lineID).getD [],
        direction := st.lineIdToDirection lineID,
        caller := (st.lineIdToCaller lineID).getD [],
        called := (st.lineIdToCalled lineID).getD [] }
    .ok e st

/--
`parseEventDisconnect` (DISCONNECT, `timestamp;DISCONNECT;line;duration;`):
`if len(parts) < 3` → error; reads the stored call id; parses
`parts[3]` as the duration (out-of-range index would panic, but the caller
guarantees at least 4 fields; a failed `Atoi` leaves duration `0`); reads
and deletes all five per-line map entries for the line.
-/
def parseEventDisconnect (st : ParserState) (parts : List Str) (ts : Nat)
    (lineID : Int) (raw : Str) : ParseOutcome :=
  if parts.length < 3 then .err
  else
    match parts.get? 3 with
    | none => .panic
    | some durField =>
      let e : CallEvent :=
        { timestamp := ts, type := .disconnect, line := lineID, rawMessage := raw,
          id := st.lineIdToCallID lineID,
          duration := (goAtoi? durField).getD 0,
          trunk := (st.lineIdToTrunk lineID).getD [],
          direction := st.lineIdToDirection lineID,
          caller := (st.lineIdToCaller lineID).getD [],
          called := (st.lineIdToCalled lineID).getD [] }
      let st2 : ParserState :=
        { st with
          lineIdToTrunk := upd st.lineIdToTrunk lineID none,
          lineIdToDirection := upd st.lineIdToDirection lineID none,
          lineIdToCaller := upd st.lineIdToCaller lineID none,
          lineIdToCalled := upd st.lineIdToCalled lineID none,
          lineIdToCallID := upd st.lineIdToCallID lineID none }
      .ok e st2

/--
`Client.parseEvent`: split the record on `;`; fewer than 4 fields → error;
timestamp parsing (`parseTimestamp`) never fails — it falls back to the
current instant — and is modelled by the abstract instant `ts`; a
non-integer line field → error; dispatch on the upper-cased type field;
unknown type → error.
-/
def parseEvent (countryCode localAreaCode : Str) (st : ParserState)
    (ts : Nat) (rawMessage : Str) : ParseOutcome :=
  let parts := rawMessage.splitOn ';'
  if parts.length < 4 then .err
  else
    let callTypeStr := goToUpper ((parts.get? 1).getD [])
    match goAtoi? ((parts.get? 2).getD []) with
    | none => .err
    | some lineID =>
      if callTypeStr = "RING".toList then
        parseEventRing countryCode localAreaCode st parts ts lineID rawMessage
      else if callTypeStr = "CALL".toList then
        parseEventCall countryCode localAreaCode st parts ts lineID rawMessage
      else if callTypeStr = "CONNECT".toList then
        parseEventConnect st parts ts lineID rawMessage
      else if callTypeStr = "DISCONNECT".toList then
        parseEventDisconnect st parts ts lineID rawMessage
      else .err

/--
The reader loop (`readLoop`) around the parser: each record is parsed from
the current state; on success the event is emitted and the state advances;
a parse error is reported and the record skipped (`continue`), leaving the
maps untouched.  (A panic outcome aborts the Go process; it is modelled
here as skipping, which leaves the state unchanged.)
-/
def runParser (countryCode localAreaCode : Str) :
    ParserState → List (Nat × Str) → ParserState × List CallEvent
  | st, [] => (st, [])
  | st, (ts, raw) :: rest =>
    match parseEvent countryCode localAreaCode st ts raw with
    | .ok e st2 =>
      let r := runParser countryCode localAreaCode st2 rest
      (r.1, e :: r.2)
    | _ => runParser countryCode localAreaCode st rest

/-- The parser's lifecycle invariant for line `L`: the per-line map carries
the call id `i` allocated at the lifecycle's Ring/Call, and `i` is stale in
the fresh-id supply (so later allocations differ from it). -/
def CallIdInv (L : Int) (i : Nat) (st : ParserState) : Prop :=
  st.lineIdToCallID L = some i ∧ i < st.nextCallId

/-! ## Per-line FSM (`pkg/types`, `CallStateMachine`) -/

/--
`getNextState` translated from the source's nested switch: the transition
table, with every unlisted pair falling through to the current state.
-/
def getNextState (currentState : CallStatus) (eventType : CallType) : CallStatus :=
  match currentState, eventType with
  | .idle, .ring => .ringing
  | .idle, .call => .calling
  | .ringing, .connect => .talking
  | .ringing, .disconnect => .missedCall
  | .calling, .connect => .talking
  | .calling, .disconnect => .notReached
  | .talking, .disconnect => .finished
  | s, _ => s

/--
The state of one `CallStateMachine`.  The Go struct's `timeoutTimer` /
`timeoutCtx` / `timeoutCancel` trio is modelled by `activeTimer`
(identifier and duration in seconds of the pending, not-cancelled timer)
together with the fresh-identifier supply `nextTimerId`: every
`startTimeout` creates a fresh context, and `cancelTimeout` invalidates the
current one, so a fire whose identifier is no longer the active one finds
its context cancelled.  The bookkeeping fields `lastEvent`,
`lastEventType`, `lastEventTime` and the callback/publisher handles do not
influence the transition behaviour and are omitted.
-/
structure FSMState where
  currentState : CallStatus := .idle
  finishState : Option CallStatus := none
  nextTimerId : Nat := 0
  activeTimer : Option (Nat × Nat) := none
deriving DecidableEq

/-- `cancelTimeout`: stop the timer and cancel its context. -/
def cancelTimeout (s : FSMState) : FSMState := { s with activeTimer := none }

/-- The three terminal ("finish") states. -/
def isFinishStatus (s : CallStatus) : Bool :=
  s = .missedCall || s = .notReached || s = .finished

/--
`setState`: cancel any existing timeout; track `finishState` (set on a
terminal state, kept on return to idle, reset on any other state); then
update the current state.
-/
def setState (s : FSMState) (newState : CallStatus) : FSMState :=
  let s1 := cancelTimeout s
  let s2 :=
    if isFinishStatus newState then { s1 with finishState := some newState }
    else if newState = .idle then s1
    else { s1 with finishState := none }
  { s2 with currentState := newState }

/-- `startTimeout`: arm a fresh single-shot timer (duration in seconds) with
a fresh context. -/
def startTimeout (s : FSMState) (duration : Nat) : FSMState :=
  { s with activeTimer := some (s.nextTimerId, duration),
           nextTimerId := s.nextTimerId + 1 }

/-- `handleTimeouts`: on `notReached` / `missedCall` / `finished`, start the
1-second timeout (`1 * time.Second`). -/
def handleTimeouts (s : FSMState) (state : CallStatus) : FSMState :=
  match state with
  | .notReached | .missedCall | .finished => startTimeout s 1
  | _ => s

/--
`processEventInternal`: compute the next state; when it differs, `setState`
then (for non-timeout processing) `handleTimeouts`; otherwise no-op.
(The MQTT/callback side effects are modelled separately; no caller passes
`isTimeout = true` — timer fires go through `executeTimeoutTransition`.)
-/
def processEventInternal (s : FSMState) (eventType : CallType) (isTimeout : Bool) : FSMState :=
  let oldState := s.currentState
  let newState := getNextState oldState eventType
  if oldState ≠ newState then
    let s1 := setState s newState
    if !isTimeout then handleTimeouts s1 newState else s1
  else s

/-- `ProcessEvent` / `ProcessEventWithContext`: event-driven processing. -/
def processEvent (s : FSMState) (eventType : CallType) : FSMState :=
  processEventInternal s eventType false

/--
`executeTimeoutTransition`: under the lock, if the current state is still a
terminal state, record it in `finishState` and `setState(idle)`;
otherwise do nothing.
-/
def executeTimeoutTransition (s : FSMState) : FSMState :=
  let oldState := s.currentState
  if oldState = .notReached || oldState = .missedCall || oldState = .finished then
    setState { s with finishState := some oldState } .idle
  else s

/--
The body of the `time.AfterFunc` callback installed by `startTimeout`: if
the timer's context has been cancelled — i.e. the firing timer is no longer
the active one — return without effect; otherwise run
`executeTimeoutTransition`.
-/
def fireTimer (s : FSMState) (timerId : Nat) : FSMState :=
  match s.activeTimer with
  | some (activeId, _) =>
    if activeId = timerId then executeTimeoutTransition s else s
  | none => s

/-- `IsValidTransition` on a single FSM: whether the table maps the current
state and the event to a different state. -/
def fsmIsValidTransition (s : FSMState) (eventType : CallType) : Bool :=
  getNextState s.currentState eventType ≠ s.currentState

/-! ## Line manager (`pkg/types`, `LineStateMachine`) -/

/-- The per-line FSM map of `LineStateMachine` (lazily populated). -/
structure LineStateMachine where
  machines : Int → Option FSMState := fun _ => none

/-- `GetLineState`: the line's FSM state, or `idle` when no FSM exists yet. -/
def GetLineState (lsm : LineStateMachine) (line : Int) : CallStatus :=
  match lsm.machines line with
  | some fsm => fsm.currentState
  | none => .idle

/-- `LineStateMachine.IsValidTransition`: delegate to the line's FSM; for a
line with no FSM, only RING and CALL are valid (idle behaviour). -/
def IsValidTransition (lsm : LineStateMachine) (line : Int) (eventType : CallType) : Bool :=
  match lsm.machines line with
  | some fsm => fsmIsValidTransition fsm eventType
  | none => eventType = .ring || eventType = .call

/-! ## Call store (`internal/database/client.go`) -/

/-- A row of the `calls` table (`database.Call`); `call_id` is the map key
of `Database` below.  Timestamps are abstract instants. -/
structure CallRow where
  line : Int
  status : CallStatus
  finishState : Option CallStatus := none
  caller : Option Str := none
  called : Option Str := none
  callerMSN : Option Str := none
  calledMSN : Option Str := none
  trunk : Option Str := none
  startTimestamp : Option Nat := none
  connectTimestamp : Option Nat := none
  endTimestamp : Option Nat := none
  duration : Option Int := none
  createdAt : Nat := 0
  updatedAt : Nat := 0
deriving DecidableEq

/-- The `calls` table, keyed by `call_id`. -/
def Database : Type := Nat → Option CallRow

/-- Errors surfaced by the store. -/
inductive DbError where
  | callNotFound
deriving DecidableEq

/-- `m[k] = v` on the calls table. -/
def dbUpd (db : Database) (k : Nat) (v : Option CallRow) : Database :=
  fun k2 => if k2 = k then v else db k2

/--
The SET clauses built by `Client.UpdateCall`, applied to the matched row:
always set `status` and `updated_at` (= `CURRENT_TIMESTAMP`, modelled by
`now`); set `finish_state` when provided; when an event is passed: on
`talking` set `connect_timestamp`, on `finished`/`missedCall`/`notReached`
set `end_timestamp` and — when the event's duration is positive —
`duration`.
-/
def updateCallRow (row : CallRow) (now : Nat) (status : CallStatus)
    (finishState : Option CallStatus) (event : Option CallEvent) : CallRow :=
  let row1 := { row with status := status, updatedAt := now }
  let row2 :=
    match finishState with
    | some fs => { row1 with finishState := some fs }
    | none => row1
  match event with
  | none => row2
  | some e =>
    if status = .talking then { row2 with connectTimestamp := some e.timestamp }
    else if status = .finished || status = .missedCall || status = .notReached then
      let r := { row2 with endTimestamp := some e.timestamp }
      if e.duration > 0 then { r with duration := some e.duration } else r
    else row2

/--
`Client.UpdateCall`: the `UPDATE calls SET … WHERE call_id = ?` around
`updateCallRow`; `rowsAffected == 0` — the call-id matching no row — is the
`call not found` error surfaced to the caller, and the table is unchanged
then (the UPDATE matched nothing).
-/
def UpdateCall (db : Database) (now : Nat) (callID : Nat) (status : CallStatus)
    (finishState : Option CallStatus) (event : Option CallEvent) :
    Except DbError Database :=
  match db callID with
  | none => .error .callNotFound
  | some row =>
    .ok (dbUpd db callID (some (updateCallRow row now status finishState event)))

/-! ## MQTT publisher (`internal/mqtt/client.go`) -/

/-- The `LineStatusChangeMessage` payload published on
`P/fsm/line/{line}/status_change`. -/
structure LineStatusChangeMessage where
  line : Int
  oldStatus : CallStatus
  newStatus : CallStatus
  timestamp : Nat
  event : Option CallEvent
  reason : String
deriving DecidableEq

/-- `getValidTransitionsForStatus` from the source. -/
def getValidTransitionsForStatus (status : CallStatus) : List CallType :=
  match status with
  | .idle => [.ring, .call]
  | .ringing => [.connect, .disconnect]
  | .calling => [.connect, .disconnect]
  | .talking => [.disconnect]
  | _ => []

/-- The `FSMStatusMessage` payload published on `P/fsm/line/{line}/status`. -/
structure FSMStatusMessage where
  line : Int
  status : CallStatus
  timestamp : Nat
  lastEventType : Option CallType
  lastEventTimestamp : Option Nat
  validTransitions : List CallType
  isTimeoutActive : Bool
deriving DecidableEq

/-- The payload of one FSM-debug publication. -/
inductive FsmDebugPayload where
  | statusChange (msg : LineStatusChangeMessage)
  | fsmStatus (msg : FSMStatusMessage)
deriving DecidableEq

/-- One call of the broker library's `Publish(topic, qos, retain, payload)`. -/
structure Publication where
  topic : String
  qos : Nat
  retain : Bool
  payload : FsmDebugPayload
deriving DecidableEq

/-- Errors surfaced by the publisher. -/
inductive MqttError where
  | notConnected
deriving DecidableEq

/-- `publishFSMStatus` from the source, as the payload it publishes. -/
def fsmStatusMessage (now : Nat) (line : Int) (status : CallStatus)
    (lastEvent : Option CallEvent) : FSMStatusMessage :=
  { line := line, status := status, timestamp := now,
    lastEventType := lastEvent.map CallEvent.type,
    lastEventTimestamp := lastEvent.map CallEvent.timestamp,
    validTransitions := getValidTransitionsForStatus status,
    isTimeoutActive :=
      status = .notReached || status = .missedCall || status = .finished }

/--
`Client.PublishLineStatusChange` translated from the source as the list of
`Publish` calls it makes: when the configured log level is not `"debug"`,
none; in debug mode (and connected) a `LineStatusChangeMessage` — with
`reason` `"event"` for a non-nil event and `"timeout"` for a nil one — on
`P/fsm/line/{line}/status_change`, followed by the current FSM status on
`P/fsm/line/{line}/status`.  Both go through `publish`, which always passes
the client's configured `qos` and `retain` flags.
-/
def PublishLineStatusChange (logLevel : String) (topicRoot : String)
    (qos : Nat) (retain : Bool) (connected : Bool) (now : Nat) (line : Int)
    (oldStatus newStatus : CallStatus) (event : Option CallEvent) :
    Except MqttError (List Publication) :=
  if logLevel = "debug" then
    if !connected then .error .notConnected
    else
      let msg : LineStatusChangeMessage :=
        { line := line, oldStatus := oldStatus, newStatus := newStatus,
          timestamp := now, event := event,
          reason := if event.isSome then "event" else "timeout" }
      .ok
        [ { topic := topicRoot ++ "/fsm/line/" ++ toString line ++ "/status_change",
            qos := qos, retain := retain, payload := .statusChange msg },
          { topic := topicRoot ++ "/fsm/line/" ++ toString line ++ "/status",
            qos := qos, retain := retain,
            payload := .fsmStatus (fsmStatusMessage now line newStatus event) } ]
  else .ok []

/--
The event pointer the FSM hands to `PublishLineStatusChange`: in
`processEventInternal` the goroutine passes the processed event for
non-timeout transitions and `nil` for timeouts, and
`executeTimeoutTransition` always passes `nil`.
-/
def fsmPublishedEvent (isTimeout : Bool) (event : Option CallEvent) : Option CallEvent :=
  if isTimeout then none else event

/-! ## Concrete demonstration values (used by witnesses and counterexamples) -/

/-- Country code `"49"` (the configuration used by the repository's tests). -/
def demoCountry : Str := "49".toList

/-- Local-area code `"30"`. -/
def demoArea : Str := "30".toList

/-- The raw called number `"990134"` from the repository's own parser test. -/
def demoNum : Str := "990134".toList

/-- What the source normalizes `"990134"` to (asserted by
`client_test.go`): the first digit is dropped. -/
def demoNumCode : Str := "+493090134".toList

/-- What the spec's four-step algorithm yields for `"990134"` (also the
expectation of spec §8 scenario 1). -/
def demoNumSpec : Str := "+4930990134".toList

/-- A RING record with exactly 5 fields (the minimum per spec §4.2). -/
def ring5Record : Str := "21.09.25 15:30:45;RING;0;123456789;987654321".toList

/-- A well-formed 6-field RING record on line 0. -/
def demoRingRecord : Str := "21.09.25 15:30:45;RING;0;123456789;987654321;SIP0".toList

/-- A well-formed CONNECT record on line 0. -/
def demoConnectRecord : Str := "21.09.25 15:30:50;CONNECT;0;1;123456789".toList

/-- A well-formed DISCONNECT record on line 0 with duration 235. -/
def demoDisconnectRecord : Str := "21.09.25 15:35:00;DISCONNECT;0;235;".toList

/-- The event produced by parsing `demoRingRecord` from the fresh state. -/
def demoRingEvent : CallEvent :=
  match parseEvent demoCountry demoArea {} 1 demoRingRecord with
  | .ok e _ => e
  | _ => { type := .ring }

/-- The parser state after `demoRingRecord`. -/
def demoRingState : ParserState :=
  match parseEvent demoCountry demoArea {} 1 demoRingRecord with
  | .ok _ st => st
  | _ => {}

/-- The event produced by parsing `demoDisconnectRecord` after the ring. -/
def demoDisconnectEvent : CallEvent :=
  match parseEvent demoCountry demoArea demoRingState 3 demoDisconnectRecord with
  | .ok e _ => e
  | _ => { type := .disconnect }

/-- The parser state after the disconnect. -/
def demoDisconnectState : ParserState :=
  match parseEvent demoCountry demoArea demoRingState 3 demoDisconnectRecord with
  | .ok _ st => st
  | _ => {}

/-- A line manager with no per-line FSMs yet. -/
def demoEmptyLsm : LineStateMachine := {}

/-- An FSM sitting in `finished` with a pending (not cancelled) 1-second
timer whose identifier is `0`. -/
def demoPendingTimerFsm : FSMState :=
  { currentState := .finished, finishState := some .finished,
    nextTimerId := 1, activeTimer := some (0, 1) }

/-- An FSM in `ringing` with no pending timer. -/
def demoRingingFsm : FSMState := { currentState := .ringing }

/-- An FSM in `idle` that still carries a pending timer handle. -/
def demoIdleTimerFsm : FSMState :=
  { currentState := .idle, nextTimerId := 3, activeTimer := some (2, 1) }

/-- The log level that enables the FSM debug topics. -/
def debugLevel : String := "debug"

/-- A non-debug log level. -/
def infoLevel : String := "info"

/-- The default topic prefix. -/
def demoRoot : String := "fritz/callmonitor"

/-- The publications made by `PublishLineStatusChange` in debug mode with
the retain flag configured `true`, for a timeout transition on line 3. -/
def demoDebugPubs : List Publication :=
  match PublishLineStatusChange debugLevel demoRoot 1 true true 0 3
      .missedCall .idle none with
  | .ok ps => ps
  | .error _ => []

/-- A calls table holding one row under call-id `5`. -/
def demoDb : Database :=
  fun k => if k = 5 then
    some { line := 0, status := .ringing, startTimestamp := some 1,
           caller := some demoNumCode, createdAt := 1, updatedAt := 1 }
  else none

/-- A disconnect event carrying duration 60 at instant 9. -/
def demoEndEvent : CallEvent :=
  { type := .disconnect, timestamp := 9, duration := 60, line := 0 }

/-! ## Theorems -/

/--
C1 counterexample: for country code `49` and local-area code `30`, the
source's `normalizePhoneNumber` maps the local subscriber number `990134`
to `+493090134` (dropping the leading digit, exactly as the repository's
own parser test asserts), while the spec's four-step algorithm yields
`+4930990134` (digits unchanged) — so `normalizePhoneNumber` does not
follow the spec's algorithm.
-/
theorem normalizePhoneNumber_spec_counterexample :
    normalizePhoneNumber demoCountry demoArea demoNum = some demoNumCode ∧
    normalizePhoneNumberSpec demoCountry demoArea demoNum = demoNumSpec ∧
    ¬ normalizePhoneNumber demoCountry demoArea demoNum
        = some (normalizePhoneNumberSpec demoCountry demoArea demoNum) := by
  refine ⟨rfl, rfl, ?_⟩
  decide

/--
C1 amended: `normalizePhoneNumber` applies its three rewrites in sequence,
which case-splits on the original input as `normalizePhoneNumberAmended`:
a leading `00` becomes `+`, after which a configured local-area code
rewrites the number again (replacing the `+` with `+<country><area>`); a
number starting with a single `0` gets `+<country>` for the `0` when a
country code is configured; a number not starting with `0` loses its first
character and gains the `+<country><area>` prefix when a local-area code is
configured; the empty input returns empty when no local-area code is
configured and panics otherwise.
-/
theorem normalizePhoneNumber_amended_correct :
    ∀ countryCode localAreaCode phoneNumber,
      normalizePhoneNumber countryCode localAreaCode phoneNumber =
        normalizePhoneNumberAmended countryCode localAreaCode phoneNumber := by
  intro c a p
  rcases p with _ | ⟨c0, _ | ⟨t0, t2⟩⟩
  · cases ha : a.isEmpty <;>
      simp [normalizePhoneNumber, normalizePhoneNumberAmended, goHasPrefix,
        List.isPrefixOf, ha]
  · by_cases hc0 : c0 = '0'
    · subst hc0
      cases ha : a.isEmpty <;> cases hc : c.isEmpty <;>
        simp [normalizePhoneNumber, normalizePhoneNumberAmended, goHasPrefix,
          List.isPrefixOf, ha, hc]
    · have hb : ('0' == c0) = false := by
        simp [beq_eq_false_iff_ne, Ne.symm hc0]
      cases ha : a.isEmpty <;> cases hc : c.isEmpty <;>
        simp [normalizePhoneNumber, normalizePhoneNumberAmended, goHasPrefix,
          List.isPrefixOf, ha, hc, hb, hc0]
      all_goals exact fun h => absurd h.symm hc0
  · by_cases hc0 : c0 = '0' <;> by_cases ht0 : t0 = '0'
    · subst hc0; subst ht0
      cases ha : a.isEmpty <;> cases hc : c.isEmpty <;>
        simp [normalizePhoneNumber, normalizePhoneNumberAmended, goHasPrefix,
          List.isPrefixOf, ha, hc]
    · subst hc0
      have hb : ('0' == t0) = false := by
        simp [beq_eq_false_iff_ne, Ne.symm ht0]
      cases ha : a.isEmpty <;> cases hc : c.isEmpty <;>
        simp [normalizePhoneNumber, normalizePhoneNumberAmended, goHasPrefix,
          List.isPrefixOf, ha, hc, hb, ht0]
    · subst ht0
      have hb : ('0' == c0) = false := by
        simp [beq_eq_false_iff_ne, Ne.symm hc0]
      cases ha : a.isEmpty <;> cases hc : c.isEmpty <;>
        simp [normalizePhoneNumber, normalizePhoneNumberAmended, goHasPrefix,
          List.isPrefixOf, ha, hc, hb, hc0]
      all_goals exact fun h => absurd h.symm hc0
    · have hb : ('0' == c0) = false := by
        simp [beq_eq_false_iff_ne, Ne.symm hc0]
      have hb2 : ('0' == t0) = false := by
        simp [beq_eq_false_iff_ne, Ne.symm ht0]
      cases ha : a.isEmpty <;> cases hc : c.isEmpty <;>
        simp [normalizePhoneNumber, normalizePhoneNumberAmended, goHasPrefix,
          List.isPrefixOf, ha, hc, hb, hb2, hc0, ht0]
      all_goals exact fun h => absurd h.symm hc0

/-- Helper: searching the sublist of non-empty entries for a suffix equals
searching the full list for a non-empty suffix. -/
theorem find?_filter_nonempty (n : Str) :
    ∀ msns : List Str,
      (msns.filter fun m => !m.isEmpty).find? (fun m => goHasSuffix n m) =
        msns.find? (fun m => !m.isEmpty && goHasSuffix n m) := by
  intro msns
  induction msns with
  | nil => rfl
  | cons hd tl ih =>
    cases h1 : hd.isEmpty
    · cases h2 : goHasSuffix n hd <;>
        simp [List.filter_cons, List.find?_cons, h1, h2, ih]
    · simp [List.filter_cons, List.find?_cons, h1, ih]

/--
C9 counterexample: for `N = "990134"` and the MSN list `["", "990134"]`,
the literal reading of the spec — the first MSN `m` in the list such that
`N` ends with `m` — selects the empty entry (every string ends with `""`),
while `DetectMSN` skips empty entries and returns `"990134"`; so
`DetectMSN` does not return the first suffix-matching list entry.
-/
theorem DetectMSN_spec_counterexample :
    DetectMSN demoNum [[], demoNum] = demoNum ∧
    detectMSNSpec demoNum [[], demoNum] = [] ∧
    ¬ DetectMSN demoNum [[], demoNum] = detectMSNSpec demoNum [[], demoNum] := by
  refine ⟨rfl, rfl, ?_⟩
  decide

/--
C9 amended: `DetectMSN N M` returns the first **non-empty** MSN in `M` that
is a suffix of `N` (empty-string entries are skipped), and the empty string
when no such MSN matches; empty `N` or empty `M` returns the empty string;
and whenever the result is non-empty, `N` ends with the result.
-/
theorem DetectMSN_amended_correct :
    ∀ (n : Str) (msns : List Str),
      DetectMSN n msns = detectMSNSpec n (msns.filter fun m => !m.isEmpty) ∧
      DetectMSN ([] : Str) msns = [] ∧
      DetectMSN n ([] : List Str) = [] ∧
      (DetectMSN n msns ≠ [] → goHasSuffix n (DetectMSN n msns) = true) := by
  intro n msns
  refine ⟨?_, rfl, ?_, ?_⟩
  · by_cases hn : n.isEmpty
    · simp [DetectMSN, detectMSNSpec, hn]
    · simp only [DetectMSN, detectMSNSpec, hn, if_neg, Bool.not_eq_true]
      rw [find?_filter_nonempty]
  · simp [DetectMSN]
  · intro hne
    by_cases hn : n.isEmpty
    · simp [DetectMSN, hn] at hne
    · simp only [DetectMSN, hn] at hne ⊢
      cases hf : msns.find? (fun m => !m.isEmpty && goHasSuffix n m) with
      | none => simp [hf] at hne ⊢
      | some m =>
        have := List.find?_some hf
        simp only [Bool.and_eq_true] at this
        simp [hf, this.2]

/--
C9 witness: `DetectMSN_amended_correct` at concrete inputs: on
`+4930990134` with the single configured MSN `990134` the result is
non-empty, and the number indeed ends with it.
-/
theorem DetectMSN_amended_correct_witness :
    DetectMSN demoNumSpec [demoNum] ≠ [] ∧
    goHasSuffix demoNumSpec (DetectMSN demoNumSpec [demoNum]) = true :=
  ⟨by decide, (DetectMSN_amended_correct demoNumSpec [demoNum]).2.2.2 (by decide)⟩

/--
C2: the parser is specified never to panic and to reject records below the
per-type minimum field count (RING 5) with an error; but on a RING record
with exactly 5 fields — the spec's stated minimum — the source passes the
`len(parts) < 5` guard and then evaluates `parts[5]` for the trunk, an
out-of-range index that panics the Go process.  This theorem evaluates the
embedded parser at that failing input.
-/
theorem parseEvent_ring_min_fields_panics :
    (ring5Record.splitOn ';').length = 5 ∧
    parseEvent demoCountry demoArea {} 0 ring5Record = .panic := by
  exact ⟨rfl, rfl⟩

/--
C3: the FSM's next-state function is total (a total Lean function) and
equals exactly the spec's transition table — idle+Ring→ringing,
idle+Call→calling, ringing+Connect→talking, ringing+Disconnect→missedCall,
calling+Connect→talking, calling+Disconnect→notReached,
talking+Disconnect→finished — and every other (state, event) pair is a
no-op returning the current state.
-/
theorem getNextState_matches_table :
    getNextState .idle .ring = .ringing ∧
    getNextState .idle .call = .calling ∧
    getNextState .ringing .connect = .talking ∧
    getNextState .ringing .disconnect = .missedCall ∧
    getNextState .calling .connect = .talking ∧
    getNextState .calling .disconnect = .notReached ∧
    getNextState .talking .disconnect = .finished ∧
    ∀ (s : CallStatus) (e : CallType),
      ¬ ((s = .idle ∧ (e = .ring ∨ e = .call)) ∨
         ((s = .ringing ∨ s = .calling) ∧ (e = .connect ∨ e = .disconnect)) ∨
         (s = .talking ∧ e = .disconnect)) →
      getNextState s e = s := by
  refine ⟨rfl, rfl, rfl, rfl, rfl, rfl, rfl, ?_⟩
  decide

/-- C3 witness: the no-op clause of `getNextState_matches_table` applied at
the concrete unlisted pair (finished, Ring). -/
theorem getNextState_matches_table_witness :
    ¬ ((CallStatus.finished = .idle ∧ (CallType.ring = .ring ∨ CallType.ring = .call)) ∨
       ((CallStatus.finished = .ringing ∨ CallStatus.finished = .calling) ∧
         (CallType.ring = .connect ∨ CallType.ring = .disconnect)) ∨
       (CallStatus.finished = .talking ∧ CallType.ring = .disconnect)) ∧
    getNextState .finished .ring = .finished :=
  ⟨by decide, getNextState_matches_table.2.2.2.2.2.2.2 .finished .ring (by decide)⟩

/--
C10: for a line with no per-line FSM in the manager, `GetLineState` returns
`idle`, and `IsValidTransition` returns `true` exactly for the Ring and
Call event types (and `false` for Connect and Disconnect).
-/
theorem lineManager_unknown_line_defaults :
    ∀ (lsm : LineStateMachine) (line : Int),
      lsm.machines line = none →
      GetLineState lsm line = .idle ∧
      (∀ e : CallType, IsValidTransition lsm line e = true ↔ (e = .ring ∨ e = .call)) := by
  intro lsm line h
  constructor
  · simp [GetLineState, h]
  · intro e
    cases e <;> simp [IsValidTransition, h]

/-- C10 witness: `lineManager_unknown_line_defaults` applied to the empty
manager at line 7. -/
theorem lineManager_unknown_line_defaults_witness :
    demoEmptyLsm.machines 7 = none ∧
    GetLineState demoEmptyLsm 7 = .idle ∧
    (IsValidTransition demoEmptyLsm 7 .ring = true ↔
      (CallType.ring = .ring ∨ CallType.ring = .call)) ∧
    IsValidTransition demoEmptyLsm 7 .disconnect = false :=
  ⟨rfl, (lineManager_unknown_line_defaults demoEmptyLsm 7 rfl).1,
    (lineManager_unknown_line_defaults demoEmptyLsm 7 rfl).2 .ring, by decide⟩

/--
C4: every event-driven entry into `notReached`, `missedCall` or `finished`
arms a single-shot timer of exactly 1 second; a fire of the active timer
transitions to `idle` when the current state is still one of the three
terminal states and leaves the FSM unchanged otherwise; and a fire of a
timer that is no longer the active one (its context was cancelled) is a
no-op.
-/
theorem fsm_terminal_timeout_behaviour :
    (∀ (s : FSMState) (e : CallType),
        isFinishStatus (processEvent s e).currentState = true →
        (processEvent s e).currentState ≠ s.currentState →
        ∃ tid, (processEvent s e).activeTimer = some (tid, 1)) ∧
    (∀ (s : FSMState) (tid d : Nat),
        s.activeTimer = some (tid, d) →
        (isFinishStatus s.currentState = true →
            (fireTimer s tid).currentState = .idle) ∧
        (isFinishStatus s.currentState = false → fireTimer s tid = s)) ∧
    (∀ (s : FSMState) (tid : Nat),
        (∀ d, s.activeTimer ≠ some (tid, d)) → fireTimer s tid = s) := by
  refine ⟨?_, ?_, ?_⟩
  · intro s e h1 h2
    rcases s with ⟨cs, fs, nt, act⟩
    cases cs <;> cases e <;>
      simp_all [processEvent, processEventInternal, getNextState, setState,
        cancelTimeout, handleTimeouts, startTimeout, isFinishStatus]
  · intro s tid d h
    rcases s with ⟨cs, fs, nt, act⟩
    simp only at h
    subst h
    cases cs <;>
      simp [fireTimer, executeTimeoutTransition, setState, cancelTimeout,
        isFinishStatus]
  · intro s tid h
    rcases s with ⟨cs, fs, nt, act⟩
    cases act with
    | none => simp [fireTimer]
    | some p =>
      rcases p with ⟨tid2, d2⟩
      have hne : tid2 ≠ tid := by
        intro heq
        exact h d2 (by simp [heq])
      simp [fireTimer, hne]

/--
C4 witness: `fsm_terminal_timeout_behaviour` at the concrete instances:
Disconnect in `ringing` enters `missedCall` with a 1-second timer; firing
the active timer of `demoPendingTimerFsm` (in `finished`) reaches `idle`;
firing the stale timer id 7 there is a no-op.
-/
theorem fsm_terminal_timeout_behaviour_witness :
    isFinishStatus (processEvent demoRingingFsm .disconnect).currentState = true ∧
    (processEvent demoRingingFsm .disconnect).currentState ≠ demoRingingFsm.currentState ∧
    (∃ tid, (processEvent demoRingingFsm .disconnect).activeTimer = some (tid, 1)) ∧
    demoPendingTimerFsm.activeTimer = some (0, 1) ∧
    (fireTimer demoPendingTimerFsm 0).currentState = .idle ∧
    fireTimer demoPendingTimerFsm 7 = demoPendingTimerFsm :=
  ⟨by decide, by decide,
    fsm_terminal_timeout_behaviour.1 demoRingingFsm .disconnect (by decide) (by decide),
    rfl,
    (fsm_terminal_timeout_behaviour.2.1 demoPendingTimerFsm 0 1 rfl).1 (by decide),
    fsm_terminal_timeout_behaviour.2.2 demoPendingTimerFsm 7
      (fun d h => by simp [demoPendingTimerFsm] at h)⟩

/--
C5 counterexample: with the FSM in `finished` and its terminal-state timer
pending, processing an event (here Ring) is a complete no-op — the pending
timer is **not** cancelled, contradicting the claim that processing any
event through the FSM cancels a pending terminal-state timer.  (No event
maps a terminal state to a different state, and only a state change reaches
`setState`, the sole event-path cancellation point.)
-/
theorem fsm_event_cancel_counterexample :
    demoPendingTimerFsm.activeTimer = some (0, 1) ∧
    isFinishStatus demoPendingTimerFsm.currentState = true ∧
    processEvent demoPendingTimerFsm .ring = demoPendingTimerFsm ∧
    ¬ (processEvent demoPendingTimerFsm .ring).activeTimer = none := by
  refine ⟨rfl, rfl, rfl, ?_⟩
  decide

/--
C5 amended: an event cancels a pending timer exactly when it changes the
state: every state-changing event whose target is not a terminal state
leaves no timer pending (entry into any non-terminal, non-idle state
cancels any pending timer), while an event arriving in a terminal state —
the only states with a pending timer — changes nothing and leaves the
pending timer running.
-/
theorem fsm_timer_cancellation_amended :
    (∀ (s : FSMState) (e : CallType),
        getNextState s.currentState e ≠ s.currentState →
        isFinishStatus (getNextState s.currentState e) = false →
        (processEvent s e).activeTimer = none) ∧
    (∀ (s : FSMState) (e : CallType),
        isFinishStatus s.currentState = true → processEvent s e = s) := by
  constructor
  · intro s e h1 h2
    rcases s with ⟨cs, fs, nt, act⟩
    cases cs <;> cases e <;>
      simp_all [processEvent, processEventInternal, getNextState, setState,
        cancelTimeout, handleTimeouts, startTimeout, isFinishStatus]
  · intro s e h
    rcases s with ⟨cs, fs, nt, act⟩
    cases cs <;> cases e <;>
      simp_all [processEvent, processEventInternal, getNextState, isFinishStatus]

/--
C5 amended witness: `fsm_timer_cancellation_amended` at concrete inputs:
a Ring on an idle FSM with a (stale) pending timer enters `ringing` and
cancels it; a Call on `demoPendingTimerFsm` (in `finished`, timer pending)
is a no-op.
-/
theorem fsm_timer_cancellation_amended_witness :
    demoIdleTimerFsm.activeTimer = some (2, 1) ∧
    (processEvent demoIdleTimerFsm .ring).activeTimer = none ∧
    processEvent demoPendingTimerFsm .call = demoPendingTimerFsm :=
  ⟨rfl,
    fsm_timer_cancellation_amended.1 demoIdleTimerFsm .ring (by decide) (by decide),
    fsm_timer_cancellation_amended.2 demoPendingTimerFsm .call (by decide)⟩

/--
C6: every `UpdateCall` invocation always sets the row's `status` and
`updated_at`; sets `connect_timestamp` to the event's timestamp when the
new status is `talking`; sets `end_timestamp` to the event's timestamp —
and `duration` when the event carries a positive duration — when the new
status is `finished`, `missedCall` or `notReached`; sets `finish_state`
when one is supplied; and surfaces an error to the caller, modifying no
row, when no row with the given call-id exists.  Only the addressed row is
touched (`dbUpd` at `callID`).
-/
theorem UpdateCall_semantics :
    ∀ (db : Database) (now callID : Nat) (status : CallStatus)
      (finishState : Option CallStatus) (event : Option CallEvent),
      (db callID = none →
        UpdateCall db now callID status finishState event = .error .callNotFound) ∧
      (∀ row, db callID = some row →
        UpdateCall db now callID status finishState event =
          .ok (dbUpd db callID (some (updateCallRow row now status finishState event))) ∧
        (updateCallRow row now status finishState event).status = status ∧
        (updateCallRow row now status finishState event).updatedAt = now ∧
        (∀ fs, finishState = some fs →
          (updateCallRow row now status finishState event).finishState = some fs) ∧
        (∀ e, event = some e → status = .talking →
          (updateCallRow row now status finishState event).connectTimestamp =
            some e.timestamp) ∧
        (∀ e, event = some e →
          (status = .finished ∨ status = .missedCall ∨ status = .notReached) →
          (updateCallRow row now status finishState event).endTimestamp =
            some e.timestamp ∧
          (0 < e.duration →
            (updateCallRow row now status finishState event).duration =
              some e.duration))) := by
  intro db now callID status finishState event
  constructor
  · intro h
    simp [UpdateCall, h]
  · intro row h
    refine ⟨by simp [UpdateCall, h], ?_, ?_, ?_, ?_, ?_⟩
    · rcases finishState with _ | fs0 <;> rcases event with _ | e0 <;>
        cases status <;> simp_all [updateCallRow] <;> (try split_ifs <;> rfl)
    · rcases finishState with _ | fs0 <;> rcases event with _ | e0 <;>
        cases status <;> simp_all [updateCallRow] <;> (try split_ifs <;> rfl)
    · intro fs hfs
      subst hfs
      rcases event with _ | e0 <;> cases status <;>
        simp_all [updateCallRow] <;> (try split_ifs <;> rfl)
    · intro e he hst
      subst he; subst hst
      rcases finishState with _ | fs0 <;> simp_all [updateCallRow]
    · intro e he hst
      subst he
      rcases hst with h3 | h3 | h3 <;> subst h3 <;>
        rcases finishState with _ | fs0 <;>
        constructor <;>
        first
          | (intro hd; simp_all [updateCallRow])
          | (simp only [updateCallRow]; split_ifs <;> simp_all)

/--
C6 witness: `UpdateCall_semantics` on a one-row table: the transition of
call-id 5 to `finished` with a disconnect event of duration 60 at instant 9
sets status, `updated_at`, `end_timestamp` and `duration`; updating the
absent call-id 6 errors.
-/
theorem UpdateCall_semantics_witness :
    demoDb 6 = none ∧
    UpdateCall demoDb 9 6 .finished (some .finished) (some demoEndEvent) =
      .error .callNotFound ∧
    (updateCallRow ((demoDb 5).getD { line := 0, status := .idle }) 9 .finished
        (some .finished) (some demoEndEvent)).status = .finished ∧
    (updateCallRow ((demoDb 5).getD { line := 0, status := .idle }) 9 .finished
        (some .finished) (some demoEndEvent)).endTimestamp = some 9 ∧
    (updateCallRow ((demoDb 5).getD { line := 0, status := .idle }) 9 .finished
        (some .finished) (some demoEndEvent)).duration = some 60 :=
  ⟨rfl,
    (UpdateCall_semantics demoDb 9 6 .finished (some .finished) (some demoEndEvent)).1 rfl,
    ((UpdateCall_semantics demoDb 9 5 .finished (some .finished) (some demoEndEvent)).2
        _ rfl).2.1,
    (((UpdateCall_semantics demoDb 9 5 .finished (some .finished) (some demoEndEvent)).2
        _ rfl).2.2.2.2.2 demoEndEvent rfl (Or.inl rfl)).1,
    (((UpdateCall_semantics demoDb 9 5 .finished (some .finished) (some demoEndEvent)).2
        _ rfl).2.2.2.2.2 demoEndEvent rfl (Or.inl rfl)).2 (by decide)⟩

/--
C8 counterexample: with the retain flag configured `true` (the
repository's documented default) and log level `"debug"`, both FSM-debug
publications — `P/fsm/line/3/status_change` and `P/fsm/line/3/status` —
are made through `publish` with `retain = true`, not with the retain flag
false as claimed: the debug topics inherit the client's configured retain
flag.
-/
theorem publish_fsm_debug_retain_counterexample :
    PublishLineStatusChange debugLevel demoRoot 1 true true 0 3
        .missedCall .idle none = .ok demoDebugPubs ∧
    demoDebugPubs.map Publication.topic =
      [demoRoot ++ "/fsm/line/" ++ toString (3 : Int) ++ "/status_change",
       demoRoot ++ "/fsm/line/" ++ toString (3 : Int) ++ "/status"] ∧
    demoDebugPubs.map Publication.retain = [true, true] ∧
    ¬ demoDebugPubs.map Publication.retain = [false, false] := by
  refine ⟨rfl, rfl, rfl, ?_⟩
  decide

/--
C8 amended: `PublishLineStatusChange` publishes the transition record and
FSM snapshot under `P/fsm/line/{line}/…` only when the configured log level
is `"debug"` (otherwise nothing is published under `P/fsm`); the record's
`reason` is `"timeout"` with a null event exactly when the transition was
timer-driven (the FSM passes the processed event for event-driven
transitions and null for timer fires) and `"event"` otherwise; and each of
these debug publications is made with the client's **configured** retain
flag and QoS — not with retain forced to false.
-/
theorem publish_fsm_debug_amended :
    ∀ (logLevel topicRoot : String) (qos : Nat) (retainFlag connected : Bool)
      (now : Nat) (line : Int) (oldS newS : CallStatus) (event : Option CallEvent),
      (logLevel ≠ "debug" →
        PublishLineStatusChange logLevel topicRoot qos retainFlag connected
          now line oldS newS event = .ok []) ∧
      (∀ ps, PublishLineStatusChange logLevel topicRoot qos retainFlag connected
          now line oldS newS event = .ok ps →
        logLevel = "debug" →
        ps.length = 2 ∧
        (∀ p ∈ ps, p.retain = retainFlag ∧ p.qos = qos) ∧
        (∀ msg, FsmDebugPayload.statusChange msg ∈ ps.map Publication.payload →
          (msg.reason = "timeout" ↔ event = none) ∧ msg.event = event)) ∧
      (logLevel = "debug" → connected = true →
        ∃ ps, PublishLineStatusChange logLevel topicRoot qos retainFlag connected
          now line oldS newS event = .ok ps) ∧
      (∀ (isTimeout : Bool) (e : CallEvent),
        fsmPublishedEvent isTimeout (some e) = none ↔ isTimeout = true) := by
  intro logLevel topicRoot qos retainFlag connected now line oldS newS event
  refine ⟨?_, ?_, ?_, ?_⟩
  · intro h
    simp [PublishLineStatusChange, h]
  · intro ps hps hdbg
    subst hdbg
    cases connected with
    | false => simp [PublishLineStatusChange] at hps
    | true =>
      simp only [PublishLineStatusChange, if_pos rfl] at hps
      simp only [Bool.not_true, Bool.false_eq_true, if_false] at hps
      cases hps
      refine ⟨rfl, ?_, ?_⟩
      · intro p hp
        simp only [List.mem_cons, List.mem_singleton, List.not_mem_nil] at hp
        rcases hp with h1 | h1 | h1 <;> first | (subst h1; exact ⟨rfl, rfl⟩) | cases h1
      · intro msg hmsg
        simp only [List.map_cons, List.map_nil, List.mem_cons,
          List.not_mem_nil] at hmsg
        rcases hmsg with h1 | h1 | h1
        · cases h1
          cases event <;> simp
        · cases h1
        · cases h1
  · intro hdbg hconn
    subst hdbg; subst hconn
    exact ⟨_, rfl⟩
  · intro isTimeout e
    cases isTimeout <;> simp [fsmPublishedEvent]

/--
C8 amended witness: `publish_fsm_debug_amended` at concrete inputs: at log
level `"info"` nothing is published under `P/fsm`; in debug mode the two
publications of `demoDebugPubs` carry the configured retain flag `true`;
the FSM passes a null event exactly for timer-driven transitions.
-/
theorem publish_fsm_debug_amended_witness :
    PublishLineStatusChange infoLevel demoRoot 1 true true 0 3
        .missedCall .idle none = .ok [] ∧
    demoDebugPubs.length = 2 ∧
    (fsmPublishedEvent true (some demoEndEvent) = none ↔ True = True) :=
  ⟨(publish_fsm_debug_amended infoLevel demoRoot 1 true true 0 3
      .missedCall .idle none).1 (by decide),
   ((publish_fsm_debug_amended debugLevel demoRoot 1 true true 0 3
      .missedCall .idle none).2.1 demoDebugPubs rfl rfl).1,
   by
    have h := (publish_fsm_debug_amended debugLevel demoRoot 1 true true 0 3
      .missedCall .idle none).2.2.2 true demoEndEvent
    simp [h.mpr rfl]⟩

/-- Helper: what a successful `parseEventRing` determines. -/
theorem parseEventRing_ok_facts :
    ∀ (cc la : Str) (st : ParserState) (parts : List Str) (ts : Nat)
      (lineID : Int) (raw : Str) (e : CallEvent) (st2 : ParserState),
      parseEventRing cc la st parts ts lineID raw = .ok e st2 →
      e.type = .ring ∧ e.line = lineID ∧ e.id = some st.nextCallId ∧
      st2.nextCallId = st.nextCallId + 1 ∧
      st2.lineIdToCallID = upd st.lineIdToCallID lineID (some st.nextCallId) := by
  intro cc la st parts ts lineID raw e st2 h
  unfold parseEventRing at h
  split at h
  · cases h
  · split at h
    · cases h
    · split at h
      · cases h
        exact ⟨rfl, rfl, rfl, rfl, rfl⟩
      · cases h

/-- Helper: what a successful `parseEventCall` determines. -/
theorem parseEventCall_ok_facts :
    ∀ (cc la : Str) (st : ParserState) (parts : List Str) (ts : Nat)
      (lineID : Int) (raw : Str) (e : CallEvent) (st2 : ParserState),
      parseEventCall cc la st parts ts lineID raw = .ok e st2 →
      e.type = .call ∧ e.line = lineID ∧ e.id = some st.nextCallId ∧
      st2.nextCallId = st.nextCallId + 1 ∧
      st2.lineIdToCallID = upd st.lineIdToCallID lineID (some st.nextCallId) := by
  intro cc la st parts ts lineID raw e st2 h
  unfold parseEventCall at h
  split at h
  · cases h
  · split at h
    · cases h
    · split at h
      · cases h
        exact ⟨rfl, rfl, rfl, rfl, rfl⟩
      · cases h

/-- Helper: what a successful `parseEventConnect` determines. -/
theorem parseEventConnect_ok_facts :
    ∀ (st : ParserState) (parts : List Str) (ts : Nat) (lineID : Int)
      (raw : Str) (e : CallEvent) (st2 : ParserState),
      parseEventConnect st parts ts lineID raw = .ok e st2 →
      e.type = .connect ∧ e.line = lineID ∧ e.id = st.lineIdToCallID lineID ∧
      st2 = st := by
  intro st parts ts lineID raw e st2 h
  unfold parseEventConnect at h
  split at h
  · cases h
  · cases h
    exact ⟨rfl, rfl, rfl, rfl⟩

/-- Helper: what a successful `parseEventDisconnect` determines. -/
theorem parseEventDisconnect_ok_facts :
    ∀ (st : ParserState) (parts : List Str) (ts : Nat) (lineID : Int)
      (raw : Str) (e : CallEvent) (st2 : ParserState),
      parseEventDisconnect st parts ts lineID raw = .ok e st2 →
      e.type = .disconnect ∧ e.line = lineID ∧ e.id = st.lineIdToCallID lineID ∧
      st2.nextCallId = st.nextCallId ∧
      st2.lineIdToCallID = upd st.lineIdToCallID lineID none := by
  intro st parts ts lineID raw e st2 h
  unfold parseEventDisconnect at h
  split at h
  · cases h
  · split at h
    · cases h
    · cases h
      exact ⟨rfl, rfl, rfl, rfl, rfl⟩

/-- Helper: a successful `parseEvent` went through exactly one of the four
per-type builders. -/
theorem parseEvent_ok_branch :
    ∀ (cc la : Str) (st : ParserState) (ts : Nat) (raw : Str)
      (e : CallEvent) (st2 : ParserState),
      parseEvent cc la st ts raw = .ok e st2 →
      ∃ parts lineID,
        parseEventRing cc la st parts ts lineID raw = .ok e st2 ∨
        parseEventCall cc la st parts ts lineID raw = .ok e st2 ∨
        parseEventConnect st parts ts lineID raw = .ok e st2 ∨
        parseEventDisconnect st parts ts lineID raw = .ok e st2 := by
  intro cc la st ts raw e st2 h
  simp only [parseEvent] at h
  split at h
  · cases h
  · split at h
    · cases h
    · split at h
      · exact ⟨_, _, .inl h⟩
      · split at h
        · exact ⟨_, _, .inr (.inl h)⟩
        · split at h
          · exact ⟨_, _, .inr (.inr (.inl h))⟩
          · split at h
            · exact ⟨_, _, .inr (.inr (.inr h))⟩
            · cases h

/-- Helper: the facts about call-id allocation, enrichment and cleanup that a
successful `parseEvent` guarantees, by event type. -/
theorem parseEvent_ok_facts :
    ∀ (cc la : Str) (st : ParserState) (ts : Nat) (raw : Str)
      (e : CallEvent) (st2 : ParserState),
      parseEvent cc la st ts raw = .ok e st2 →
      ((e.type = .ring ∨ e.type = .call) →
          e.id = some st.nextCallId ∧ st2.nextCallId = st.nextCallId + 1 ∧
          st2.lineIdToCallID = upd st.lineIdToCallID e.line (some st.nextCallId)) ∧
      (e.type = .connect → e.id = st.lineIdToCallID e.line ∧ st2 = st) ∧
      (e.type = .disconnect →
          e.id = st.lineIdToCallID e.line ∧ st2.nextCallId = st.nextCallId ∧
          st2.lineIdToCallID = upd st.lineIdToCallID e.line none) ∧
      st.nextCallId ≤ st2.nextCallId := by
  intro cc la st ts raw e st2 h
  obtain ⟨parts, lineID, hbr⟩ := parseEvent_ok_branch cc la st ts raw e st2 h
  rcases hbr with hb | hb | hb | hb
  · obtain ⟨ht, hl, hid, hn, hm⟩ := parseEventRing_ok_facts cc la st parts ts lineID raw e st2 hb
    subst hl
    refine ⟨fun _ => ⟨hid, hn, hm⟩, ?_, ?_, by omega⟩
    · intro hc; rw [ht] at hc; cases hc
    · intro hc; rw [ht] at hc; cases hc
  · obtain ⟨ht, hl, hid, hn, hm⟩ := parseEventCall_ok_facts cc la st parts ts lineID raw e st2 hb
    subst hl
    refine ⟨fun _ => ⟨hid, hn, hm⟩, ?_, ?_, by omega⟩
    · intro hc; rw [ht] at hc; cases hc
    · intro hc; rw [ht] at hc; cases hc
  · obtain ⟨ht, hl, hid, hst⟩ := parseEventConnect_ok_facts st parts ts lineID raw e st2 hb
    subst hl; subst hst
    refine ⟨?_, fun _ => ⟨hid, rfl⟩, ?_, le_refl _⟩
    · intro hc; rcases hc with hc | hc <;> (rw [ht] at hc; cases hc)
    · intro hc; rw [ht] at hc; cases hc
  · obtain ⟨ht, hl, hid, hn, hm⟩ := parseEventDisconnect_ok_facts st parts ts lineID raw e st2 hb
    subst hl
    refine ⟨?_, ?_, fun _ => ⟨hid, hn, hm⟩, by omega⟩
    · intro hc; rcases hc with hc | hc <;> (rw [ht] at hc; cases hc)
    · intro hc; rw [ht] at hc; cases hc

/-- Helper: one successful parse step preserves the lifecycle invariant of a
line it does not start/end, and the events it emits respect the stored id. -/
theorem parseEvent_ok_inv_step (L : Int) (i : Nat) :
    ∀ (cc la : Str) (st : ParserState) (ts : Nat) (raw : Str)
      (e : CallEvent) (st2 : ParserState),
      parseEvent cc la st ts raw = .ok e st2 →
      (e.line ≠ L ∨ e.type = .connect) → CallIdInv L i st →
      CallIdInv L i st2 ∧ (e.line = L → e.id = some i) ∧
      ((e.type = .ring ∨ e.type = .call) → e.id ≠ some i) := by
  intro cc la st ts raw e st2 h hside hinv
  obtain ⟨hrc, hcon, hdis, _⟩ := parseEvent_ok_facts cc la st ts raw e st2 h
  obtain ⟨hmap, hlt⟩ := hinv
  cases hety : e.type with
  | ring =>
    obtain ⟨hid, hn, hm⟩ := hrc (Or.inl hety)
    have hlL : e.line ≠ L := by
      rcases hside with h1 | h1
      · exact h1
      · rw [hety] at h1; cases h1
    refine ⟨⟨?_, ?_⟩, fun hL => absurd hL hlL, ?_⟩
    · rw [hm]; unfold upd; rw [if_neg (Ne.symm hlL)]; exact hmap
    · rw [hn]; omega
    · intro _ hcontra
      rw [hid] at hcontra
      injection hcontra with hii
      omega
  | call =>
    obtain ⟨hid, hn, hm⟩ := hrc (Or.inr hety)
    have hlL : e.line ≠ L := by
      rcases hside with h1 | h1
      · exact h1
      · rw [hety] at h1; cases h1
    refine ⟨⟨?_, ?_⟩, fun hL => absurd hL hlL, ?_⟩
    · rw [hm]; unfold upd; rw [if_neg (Ne.symm hlL)]; exact hmap
    · rw [hn]; omega
    · intro _ hcontra
      rw [hid] at hcontra
      injection hcontra with hii
      omega
  | connect =>
    obtain ⟨hid, hst⟩ := hcon hety
    subst hst
    refine ⟨⟨hmap, hlt⟩, ?_, ?_⟩
    · intro hL; rw [hid, hL]; exact hmap
    · intro hc; rcases hc with hc | hc <;> cases hc
  | disconnect =>
    obtain ⟨hid, hn, hm⟩ := hdis hety
    have hlL : e.line ≠ L := by
      rcases hside with h1 | h1
      · exact h1
      · rw [hety] at h1; cases h1
    refine ⟨⟨?_, ?_⟩, fun hL => absurd hL hlL, ?_⟩
    · rw [hm]; unfold upd; rw [if_neg (Ne.symm hlL)]; exact hmap
    · rw [hn]; omega
    · intro hc; rcases hc with hc | hc <;> cases hc

/-- Helper: the lifecycle invariant carries through a whole trace of records
that contains no Ring/Call/Disconnect on the protected line. -/
theorem runParser_inv (cc la : Str) (L : Int) (i : Nat) :
    ∀ (mids : List (Nat × Str)) (st : ParserState),
      CallIdInv L i st →
      ∀ (stm : ParserState) (evs : List CallEvent),
        runParser cc la st mids = (stm, evs) →
        (∀ e ∈ evs, e.line ≠ L ∨ e.type = .connect) →
        CallIdInv L i stm ∧
        (∀ e ∈ evs, e.line = L → e.id = some i) ∧
        (∀ e ∈ evs, (e.type = .ring ∨ e.type = .call) → e.id ≠ some i) := by
  intro mids
  induction mids with
  | nil =>
    intro st hinv stm evs hrun hside
    simp only [runParser] at hrun
    cases hrun
    exact ⟨hinv, by simp, by simp⟩
  | cons hd tl ih =>
    intro st hinv stm evs hrun hside
    rcases hd with ⟨ts, raw⟩
    simp only [runParser] at hrun
    split at hrun
    case h_1 e st2 hstep =>
      cases hrun
      have hstepfacts := parseEvent_ok_inv_step L i cc la st ts raw e st2 hstep
        (hside e (List.mem_cons_self _ _)) hinv
      have hrest := ih st2 hstepfacts.1
        (runParser cc la st2 tl).1 (runParser cc la st2 tl).2 rfl
        (fun e2 he2 => hside e2 (List.mem_cons_of_mem _ he2))
      refine ⟨hrest.1, ?_, ?_⟩
      · intro e2 he2
        rcases List.mem_cons.mp he2 with rfl | he2
        · exact hstepfacts.2.1
        · exact hrest.2.1 e2 he2
      · intro e2 he2
        rcases List.mem_cons.mp he2 with rfl | he2
        · exact hstepfacts.2.2
        · exact hrest.2.2 e2 he2
    case h_2 =>
      exact ih st hinv stm evs hrun hside

/--
C7: for every call lifecycle on a line — a Ring or Call record allocating a
fresh id, followed by any trace of records whose events on that line are
only Connects (no interleaved lifecycle), and a final Disconnect on that
line — every event of the lifecycle carries the id allocated at the
Ring/Call; Ring/Call events of other (interleaved) lifecycles carry
distinct ids; and the Disconnect removes the line's context entry.
-/
theorem parser_callId_lifecycle_stability :
    ∀ (countryCode localAreaCode : Str) (st : ParserState) (ts0 : Nat)
      (raw0 : Str) (e0 : CallEvent) (st0 : ParserState)
      (mids : List (Nat × Str)) (stm : ParserState) (evs : List CallEvent),
      parseEvent countryCode localAreaCode st ts0 raw0 = .ok e0 st0 →
      (e0.type = .ring ∨ e0.type = .call) →
      runParser countryCode localAreaCode st0 mids = (stm, evs) →
      (∀ e ∈ evs, e.line ≠ e0.line ∨ e.type = .connect) →
      (∀ e ∈ evs, e.line = e0.line → e.id = e0.id) ∧
      (∀ e ∈ evs, (e.type = .ring ∨ e.type = .call) → e.id ≠ e0.id) ∧
      (∀ (tsd : Nat) (rawd : Str) (ed : CallEvent) (std : ParserState),
        parseEvent countryCode localAreaCode stm tsd rawd = .ok ed std →
        ed.type = .disconnect → ed.line = e0.line →
        ed.id = e0.id ∧ std.lineIdToCallID e0.line = none) := by
  intro cc la st ts0 raw0 e0 st0 mids stm evs h0 hty hrun hside
  obtain ⟨hrc, _, _, _⟩ := parseEvent_ok_facts cc la st ts0 raw0 e0 st0 h0
  obtain ⟨hid, hn, hm⟩ := hrc hty
  have hinv0 : CallIdInv e0.line st.nextCallId st0 := by
    constructor
    · rw [hm]; unfold upd; rw [if_pos rfl]
    · omega
  obtain ⟨hinvm, hstable, hdistinct⟩ :=
    runParser_inv cc la e0.line st.nextCallId mids st0 hinv0 stm evs hrun hside
  refine ⟨?_, ?_, ?_⟩
  · intro e he hL
    rw [hstable e he hL, hid]
  · intro e he hrc2
    rw [hid]
    exact hdistinct e he hrc2
  · intro tsd rawd ed std hd hty2 hl2
    obtain ⟨_, _, hdis, _⟩ := parseEvent_ok_facts cc la stm tsd rawd ed std hd
    obtain ⟨hid2, _, hm2⟩ := hdis hty2
    constructor
    · rw [hid2, hl2, hinvm.1, hid]
    · rw [hm2]; unfold upd; rw [hl2, if_pos rfl]

/--
C7 witness: `parser_callId_lifecycle_stability` on the repository's own
test lifecycle (RING on line 0, then DISCONNECT with duration 235): the
disconnect event carries exactly the id allocated at the ring, and the
per-line context entry is gone afterwards.
-/
theorem parser_callId_lifecycle_stability_witness :
    parseEvent demoCountry demoArea {} 1 demoRingRecord = .ok demoRingEvent demoRingState ∧
    demoRingEvent.type = .ring ∧
    demoRingEvent.id = some 0 ∧
    parseEvent demoCountry demoArea demoRingState 3 demoDisconnectRecord =
      .ok demoDisconnectEvent demoDisconnectState ∧
    demoDisconnectEvent.id = demoRingEvent.id ∧
    demoDisconnectState.lineIdToCallID demoRingEvent.line = none := by
  refine ⟨rfl, rfl, rfl, rfl, ?_, ?_⟩
  · exact ((parser_callId_lifecycle_stability demoCountry demoArea {} 1 demoRingRecord
      demoRingEvent demoRingState [] demoRingState [] rfl (Or.inl rfl) rfl
      (by simp)).2.2 3 demoDisconnectRecord demoDisconnectEvent demoDisconnectState
      rfl rfl rfl).1
  · exact ((parser_callId_lifecycle_stability demoCountry demoArea {} 1 demoRingRecord
      demoRingEvent demoRingState [] demoRingState [] rfl (Or.inl rfl) rfl
      (by simp)).2.2 3 demoDisconnectRecord demoDisconnectEvent demoDisconnectState
      rfl rfl rfl).2

end FritzCM









